import Mathlib

/-!
Verification of the kite-feed pipeline (src/process_kite.py, src/generate_utils.py).

Shallow embedding conventions:
* Python dict fields that are either absent or a string are modelled as
  `Option String` when the code distinguishes absence (via defaults of
  `dict.get`), and as plain `String` with `""` for absent when the code only
  ever tests truthiness (Python treats `None` and `""` the same way there).
* Python numbers are modelled as `Int`; `None`-able numeric fields as
  `Option Int`.
* Python raising `TypeError` (comparing `None` with an `int`) is modelled with
  `Except String`.
* `list(set(xs))`: CPython set iteration order is unspecified; we model it as
  first-occurrence deduplication (`pyDedup`).  No theorem below depends on the
  order of such a list beyond the empty / singleton cases, where every order
  agrees.
* `str.lower` / `str.strip` are modelled on the ASCII range; characters outside
  it never influence the claims (they are filtered away or only compared for
  equality).
-/

/-- Python truthiness-aware first-occurrence deduplication, modelling
`list(set(xs))` (order unspecified in CPython; see header note). -/
def pyDedup {α : Type} [DecidableEq α] : List α → List α
  | [] => []
  | x :: xs => x :: (pyDedup xs).filter (fun y => y ≠ x)

/-- ASCII whitespace recognised by Python `str.strip()` (space, tab, newline,
carriage return, vertical tab, form feed). -/
def pyIsSpace (c : Char) : Bool :=
  c = ' ' ∨ c = '\t' ∨ c = '\n' ∨ c = '\r' ∨ c = Char.ofNat 11 ∨ c = Char.ofNat 12

/-- ASCII lowercasing of one character, modelling `str.lower` on the range the
claims exercise. -/
def pyLowerChar (c : Char) : Char :=
  if 'A' ≤ c ∧ c ≤ 'Z' then Char.ofNat (c.toNat + 32) else c

/-- `str.lower` (ASCII range). -/
def pyLower (s : String) : String := ⟨s.data.map pyLowerChar⟩

/-- `str.strip()` on a character list: drop whitespace from both ends. -/
def pyStripList (l : List Char) : List Char :=
  ((l.dropWhile pyIsSpace).reverse.dropWhile pyIsSpace).reverse

/-- `str.strip()`. -/
def pyStrip (s : String) : String := ⟨pyStripList s.data⟩

/-- `str.startswith`. -/
def pyStartsWith (s pre : String) : Bool := pre.data.isPrefixOf s.data

/-- Python `<` on strings: lexicographic comparison by code point. -/
def pyStrLtList : List Char → List Char → Bool
  | [], [] => false
  | [], _ :: _ => true
  | _ :: _, [] => false
  | a :: as, b :: bs =>
    if a.toNat < b.toNat then true
    else if b.toNat < a.toNat then false
    else pyStrLtList as bs

/-- Python `<` on strings. -/
def pyStrLt (a b : String) : Bool := pyStrLtList a.data b.data

/-- Truthiness of an optional integer (`None` and `0` are falsy). -/
def pyTruthyInt : Option Int → Bool
  | none => false
  | some n => n ≠ 0

/-- Truthiness of an optional string (`None` and `""` are falsy). -/
def pyTruthyStr : Option String → Bool
  | none => false
  | some s => s ≠ ""

/-- One entry of a cluster's `articles` list.  Absent string fields are
modelled as `""` (the code only ever tests their truthiness). -/
structure Article where
  domain : String := ""
  title : String := ""
  link : String := ""
  date : String := ""
deriving DecidableEq

/-- One entry of a perspective's `sources` list. -/
structure SourceRef where
  name : String := ""
  url : String := ""
deriving DecidableEq

/-- One entry of the `perspectives` list (a dict in Python, hence unhashable
as a set element). -/
structure Perspective where
  text : String := ""
  sources : List SourceRef := []
deriving DecidableEq

/-- One entry of the `timeline` list (a dict in Python, hence unhashable). -/
structure TimelineEntry where
  date : String := ""
  event : String := ""
deriving DecidableEq

/-- The `primary_image` record. -/
structure Image where
  link : String := ""
  caption : String := ""
deriving DecidableEq

/-- The story record built by `cluster_to_story` (src/process_kite.py:119).
The source record carries further narrative fields (did_you_know, domains,
technical_details, ..., location); each of them is handled by the same generic
branch of the merge loop as one of the representatives modelled here:
`title`/`summary`/`quote`/`quote_author` stand for the scalar string fields,
`cluster_number` for the optional numeric fields, `talking_points` for the
lists of hashable elements, and `perspectives`/`timeline` for the lists of
dict (unhashable) elements. -/
@[ext]
structure Story where
  title : String := ""
  summary : String := ""
  feed_category : String := ""
  item_category : String := ""
  cluster_number : Option Int := none
  quote : String := ""
  quote_author : String := ""
  talking_points : List String := []
  perspectives : List Perspective := []
  timeline : List TimelineEntry := []
  primary_image : Option Image := none
  articles : List Article := []
  url : String := ""
  source_urls : List String := []
  published : Option String := none
deriving DecidableEq

/-- A raw cluster record from a category feed document.  `category_tag` is the
`_category` key injected by `extract_clusters_from_category`; `Option` fields
distinguish an absent key from a present empty value where `dict.get` defaults
matter. -/
structure Cluster where
  title : Option String := none
  short_summary : Option String := none
  category : Option String := none
  category_tag : Option String := none
  cluster_number : Option Int := none
  quote : String := ""
  quote_author : String := ""
  quote_source_url : String := ""
  talking_points : List String := []
  perspectives : List Perspective := []
  timeline : List TimelineEntry := []
  primary_image : Option Image := none
  articles : List Article := []
  timestamp : Option String := none
deriving DecidableEq

/-- The truthy `link` values of an articles list, in order (Python collects
them with `if article.get("link")`). -/
def truthy_links (arts : List Article) : List String :=
  arts.filterMap (fun a => if a.link ≠ "" then some a.link else none)

/-- src/process_kite.py:58 `get_source_urls_from_cluster`: every URL reachable
from the cluster (article links, quote source, perspective sources, primary
image link).  Python accumulates them in a `set`; modelled as first-occurrence
dedup of the insertion order (no claim depends on the order). -/
def get_source_urls_from_cluster (c : Cluster) : List String :=
  pyDedup
    (truthy_links c.articles ++
      (if c.quote_source_url ≠ "" then [c.quote_source_url] else []) ++
      c.perspectives.flatMap
        (fun p => p.sources.filterMap (fun s => if s.url ≠ "" then some s.url else none)) ++
      (match c.primary_image with
        | some img => if img.link ≠ "" then [img.link] else []
        | none => []))

/-- Hexadecimal digit for a value below 16. -/
def hexDigitChar (n : Nat) : Char :=
  if n < 10 then Char.ofNat (48 + n) else Char.ofNat (87 + n)

/-- Fixed-width big-endian hexadecimal rendering. -/
def natToHexAux : Nat → Nat → List Char
  | 0, _ => []
  | d + 1, n => natToHexAux d (n / 16) ++ [hexDigitChar (n % 16)]

/-- Rolling hash of a string, accumulated modulo 2 ^ 128. -/
def strHashAcc (acc : Nat) (s : String) : Nat :=
  s.data.foldl (fun a c => (a * 131 + c.toNat) % (2 ^ 128)) acc

/-- Modelled from the spec: the synthetic identifier is `"hash:" +` a
content hash (MD5 of `json.dumps(cluster, sort_keys=True)` via Python's
stdlib `hashlib`, which is not part of src/).  Modelled as a 32-hex-digit
rolling hash over a field serialization; the claims depend only on the
`"hash:"` prefix, never on the digest value. -/
def cluster_content_hash (c : Cluster) : String :=
  ⟨natToHexAux 32 (strHashAcc 5381 (String.intercalate "|"
    ([c.title.getD "", c.short_summary.getD "", c.category.getD "", c.quote,
      c.quote_source_url, c.timestamp.getD ""] ++
      c.talking_points ++ c.articles.map (fun a => a.link) ++
      c.articles.map (fun a => a.title))))⟩

/-- First perspective's first source URL, or `""` when the chain of lookups in
src/process_kite.py:103-107 falls through. -/
def first_perspective_url (c : Cluster) : String :=
  match c.perspectives with
  | p :: _ =>
    match p.sources with
    | s :: _ => s.url
    | [] => ""
  | [] => ""

/-- src/process_kite.py:91 `get_primary_source_url`: first article link, else
quote source URL, else first perspective's first source URL, else primary
image link, else a `"hash:"`-prefixed synthetic identifier. -/
def get_primary_source_url (c : Cluster) : String :=
  let fromArticle : String :=
    match c.articles with
    | a :: _ => a.link
    | [] => ""
  if fromArticle ≠ "" then fromArticle
  else if c.quote_source_url ≠ "" then c.quote_source_url
  else if first_perspective_url c ≠ "" then first_perspective_url c
  else
    let imgLink : String :=
      match c.primary_image with
      | some img => img.link
      | none => ""
    if imgLink ≠ "" then imgLink
    else "hash:" ++ cluster_content_hash c

/-- src/process_kite.py:119 `cluster_to_story`: normalize a cluster into a
story record.  Note that `cluster_number` is copied through
`cluster.get("cluster_number")`, i.e. a missing rank is stored as `None`
(`none`), not as 999. -/
def cluster_to_story (c : Cluster) (file_timestamp : Option String)
    (feed_category : String) : Story :=
  { title := c.title.getD "Untitled"
    summary := c.short_summary.getD ""
    feed_category := if feed_category ≠ "" then feed_category else c.category_tag.getD ""
    item_category := c.category.getD ""
    cluster_number := c.cluster_number
    quote := c.quote
    quote_author := c.quote_author
    talking_points := c.talking_points
    perspectives := c.perspectives
    timeline := c.timeline
    primary_image := c.primary_image
    articles := c.articles
    url := get_primary_source_url c
    source_urls := get_source_urls_from_cluster c
    published :=
      match file_timestamp with
      | some t => some t
      | none =>
        match c.timestamp with
        | some t => some t
        | none =>
          match c.articles with
          | a :: _ => if a.date ≠ "" then some a.date else none
          | [] => none }

/-- The configuration keys consulted by `apply_filters`
(`filters.enabled`, default true; `filters.min_score`, default 0). -/
structure Config where
  filters_enabled : Bool := true
  min_score : Int := 0
deriving DecidableEq

/-- The loop body of src/process_kite.py:179-190.  A story whose stored
`cluster_number` is `None` makes Python evaluate `None < 100`, raising
`TypeError` (the 999 default of `story.get` is dead code: `cluster_to_story`
always stores the key). -/
def apply_filters_go (min_score : Int) : List Story → Except String (List Story)
  | [] => .ok []
  | story :: rest =>
    match story.cluster_number with
    | none => .error "TypeError: unorderable types NoneType and int"
    | some n =>
      let score : Int := if n < 100 then 100 - n else 0
      (apply_filters_go min_score rest).map
        (fun tail => if min_score ≤ score ∨ min_score = 0 then story :: tail else tail)

/-- src/process_kite.py:171 `apply_filters`. -/
def apply_filters (stories : List Story) (config : Config) :
    Except String (List Story) :=
  if ¬ config.filters_enabled then .ok stories
  else apply_filters_go config.min_score stories

/-- Sort key comparison of src/process_kite.py:346
(`key=lambda x: x.get("cluster_number", 999)`); only ever evaluated when every
key is an integer (otherwise Python raises before comparing, see
`select_top_n`). -/
def cnLe (a b : Story) : Bool := a.cluster_number.getD 999 ≤ b.cluster_number.getD 999

/-- `cnLe` as a relation, for `List.insertionSort`. -/
def rankLe (a b : Story) : Prop := cnLe a b = true

instance : DecidableRel rankLe := fun a b => instDecidableEqBool (cnLe a b) true

instance : IsTotal Story rankLe :=
  ⟨fun a b => by
    simp only [rankLe, cnLe, decide_eq_true_eq]
    exact Int.le_total _ _⟩

instance : IsTrans Story rankLe :=
  ⟨fun a b c hab hbc => by
    simp only [rankLe, cnLe, decide_eq_true_eq] at *
    exact le_trans hab hbc⟩

/-- src/process_kite.py:345-347, the per-category selector: when `top_n > 0`,
stable-sort by `cluster_number` and keep the first `top_n`; otherwise keep
everything untouched.  CPython `list.sort` is stable, and the result of a
stable sort under a total transitive key comparison is unique, so
`List.insertionSort` (which is stable) is an exact model of it.  Sorting a
list of length at least two that contains a `None` rank raises `TypeError` in
Python (every element is compared with a neighbour at least once); a list of
length at most one is never compared. -/
def select_top_n (stories : List Story) (top_n : Int) : Except String (List Story) :=
  if 0 < top_n then
    if stories.length ≤ 1 ∨ stories.all (fun s => s.cluster_number.isSome) then
      .ok ((stories.insertionSort rankLe).take top_n.toNat)
    else .error "TypeError: unorderable types NoneType and int"
  else .ok stories

/-- src/process_kite.py:200-213: the candidate dedup keys of a story — every
truthy article link, else the primary `url` unless it is empty or
`"hash:"`-prefixed. -/
def candidate_urls (story : Story) : List String :=
  let fromArticles := truthy_links story.articles
  if fromArticles.isEmpty then
    if story.url ≠ "" ∧ ¬ pyStartsWith story.url "hash:" then [story.url] else []
  else fromArticles

/-- `url.lower().strip()` (src/process_kite.py:220). -/
def normalize_url (u : String) : String := pyStrip (pyLower u)

/-- The mutable `seen_urls` dict is modelled as an association list from a
normalized URL to the index of the canonical story inside the output list
(Python aliases the story object; the index plays the role of the alias). -/
structure MergeState where
  merged : List Story := []
  seen : List (String × Nat) := []
deriving DecidableEq

/-- Dict lookup in the modelled `seen_urls`. -/
def lookup_seen (seen : List (String × Nat)) (u : String) : Option Nat :=
  (seen.find? (fun e => e.1 = u)).map (fun e => e.2)

/-- src/process_kite.py:216-224: the first candidate URL already present in
`seen_urls` decides the duplicate, in the order of the story's own key list. -/
def find_duplicate (seen : List (String × Nat)) : List String → Option Nat
  | [] => none
  | u :: rest =>
    match lookup_seen seen (normalize_url u) with
    | some i => some i
    | none => find_duplicate seen rest

/-- src/process_kite.py:229-237: append the incoming articles whose link is not
among the existing truthy links.  The set of existing links is computed once
and not refreshed while appending, exactly as in the source. -/
def merge_articles (e s : List Article) : List Article :=
  let existingLinks := truthy_links e
  e ++ s.filter (fun a => ¬ existingLinks.contains a.link)

/-- src/process_kite.py:239-242: set union of the source URL lists. -/
def merge_source_urls (e s : List String) : List String := pyDedup (e ++ s)

/-- src/process_kite.py:244-255: combine distinct non-empty feed categories
into a sorted comma-joined string (single distinct value collapses). -/
def merge_feed_category (e s : String) : String :=
  if s ≠ "" ∧ s ≠ e then
    if e = "" then s
    else if pyStrLt e s then e ++ ", " ++ s else s ++ ", " ++ e
  else e

/-- src/process_kite.py:257-261: keep the existing item category unless it is
empty and the incoming one is not. -/
def merge_item_category (e s : String) : String :=
  if s ≠ "" ∧ e = "" then s else e

/-- Generic merge branch for a scalar string field (src/process_kite.py:266):
take the incoming value only when it is truthy and the existing one is not. -/
def merge_scalar_str (e s : String) : String :=
  if s ≠ "" ∧ e = "" then s else e

/-- Generic merge branch for an optional numeric field (`0` and `None` are
both falsy). -/
def merge_opt_int (e s : Option Int) : Option Int :=
  if pyTruthyInt s ∧ ¬ pyTruthyInt e then s else e

/-- Generic merge branch for an optional string field. -/
def merge_opt_str (e s : Option String) : Option String :=
  if pyTruthyStr s ∧ ¬ pyTruthyStr e then s else e

/-- Generic merge branch for the optional image record (a present dict is
truthy). -/
def merge_opt_img (e s : Option Image) : Option Image :=
  if s.isSome ∧ e.isNone then s else e

/-- Generic merge branch for a list of hashable elements
(src/process_kite.py:268-274): a non-empty incoming list replaces an empty
existing one verbatim; two non-empty lists become `list(set(concat))`. -/
def merge_hashable_list {α : Type} [DecidableEq α] (e s : List α) : List α :=
  if s ≠ [] ∧ e = [] then s
  else if s ≠ [] then pyDedup (e ++ s)
  else e

/-- Generic merge branch for a list of unhashable (dict) elements
(src/process_kite.py:275-277): `set` raises `TypeError`, so two non-empty
lists are concatenated with no deduplication. -/
def merge_unhashable_list {α : Type} (e s : List α) : List α :=
  if s.isEmpty then e
  else if e.isEmpty then s
  else e ++ s

/-- src/process_kite.py:226-277: merge an incoming duplicate story `s` into the
canonical story `e`, field by field.  `url` is in the exclusion list of the
generic loop and is never touched. -/
def merge_into (e s : Story) : Story :=
  { title := merge_scalar_str e.title s.title
    summary := merge_scalar_str e.summary s.summary
    feed_category := merge_feed_category e.feed_category s.feed_category
    item_category := merge_item_category e.item_category s.item_category
    cluster_number := merge_opt_int e.cluster_number s.cluster_number
    quote := merge_scalar_str e.quote s.quote
    quote_author := merge_scalar_str e.quote_author s.quote_author
    talking_points := merge_hashable_list e.talking_points s.talking_points
    perspectives := merge_unhashable_list e.perspectives s.perspectives
    timeline := merge_unhashable_list e.timeline s.timeline
    primary_image := merge_opt_img e.primary_image s.primary_image
    articles := merge_articles e.articles s.articles
    url := e.url
    source_urls := merge_source_urls e.source_urls s.source_urls
    published := merge_opt_str e.published s.published }

/-- src/process_kite.py:278-284: the registrations performed for a new story
at output index `idx` — every normalized candidate key that is non-empty and
not `"hash:"`-prefixed. -/
def register_urls (urls : List String) (idx : Nat) : List (String × Nat) :=
  urls.filterMap (fun u =>
    if normalize_url u ≠ "" ∧ ¬ pyStartsWith (normalize_url u) "hash:" then
      some (normalize_url u, idx)
    else none)

/-- One iteration of the loop of src/process_kite.py:200-284: either merge the
story into the canonical story its first matching key points at (the map is
left untouched), or append it as new and register its normalized, non-empty,
non-hash keys at its output index. -/
def merge_step (st : MergeState) (story : Story) : MergeState :=
  let urls := candidate_urls story
  match find_duplicate st.seen urls with
  | some i =>
    { st with merged := st.merged.set i (merge_into (st.merged.getD i {}) story) }
  | none =>
    { merged := st.merged ++ [story]
      seen := st.seen ++ register_urls urls st.merged.length }

/-- The driving loop of `merge_duplicates`. -/
def merge_go (st : MergeState) : List Story → MergeState
  | [] => st
  | s :: rest => merge_go (merge_step st s) rest

/-- src/process_kite.py:195 `merge_duplicates`. -/
def merge_duplicates (stories : List Story) : List Story :=
  (merge_go {} stories).merged

/-- The `title` value read from the story dict by `get_story_slug`
(src/generate_utils.py:61-63): the key may be absent, hold a non-string, or
hold a string. -/
inductive TitleVal
  | missing
  | nonString
  | str (s : String)
deriving DecidableEq

/-- Characters the slug keeps (the regex class `[a-z0-9\-_]` of
src/generate_utils.py:74). -/
def slugAllowed (c : Char) : Bool :=
  ('a' ≤ c ∧ c ≤ 'z') ∨ ('0' ≤ c ∧ c ≤ '9') ∨ c = '-' ∨ c = '_'

/-- Membership in the regex class `[-\s]` of src/generate_utils.py:71. -/
def dashOrSpace (c : Char) : Bool := c = '-' ∨ pyIsSpace c

/-- The substitution `re.sub(r"[-\s]+", "-", slug)`: every maximal run of
hyphens/whitespace becomes a single hyphen.  The boolean flag records whether
the previous character belonged to the current run. -/
def collapseRunsGo : Bool → List Char → List Char
  | _, [] => []
  | inRun, c :: rest =>
    if dashOrSpace c then
      if inRun then collapseRunsGo true rest
      else '-' :: collapseRunsGo true rest
    else c :: collapseRunsGo false rest

/-- `re.sub(r"[-\s]+", "-", slug)`. -/
def collapseRuns (l : List Char) : List Char := collapseRunsGo false l

/-- Characters stripped by `slug.strip("- _")` and `rstrip("- _")`. -/
def slugStripChar (c : Char) : Bool := c = '-' ∨ c = ' ' ∨ c = '_'

/-- `slug.rstrip("- _")`. -/
def slugRstrip (l : List Char) : List Char :=
  (l.reverse.dropWhile slugStripChar).reverse

/-- `slug.strip("- _")`. -/
def slugStrip (l : List Char) : List Char :=
  slugRstrip (l.dropWhile slugStripChar)

/-- Characters `urllib.parse.quote` never escapes: unreserved characters plus
the `safe="-"` argument (redundantly, `-` is already unreserved). -/
def quoteKeep (c : Char) : Bool :=
  ('A' ≤ c ∧ c ≤ 'Z') ∨ ('a' ≤ c ∧ c ≤ 'z') ∨ ('0' ≤ c ∧ c ≤ '9') ∨
    c = '_' ∨ c = '.' ∨ c = '~' ∨ c = '-'

/-- `urllib.parse.quote(slug, safe="-")` on one character, modelled for the
ASCII range (stdlib, not part of src/; in `get_story_slug` the input has
already been filtered to `[a-z0-9\-_]`, so the escape branch is
unreachable there). -/
def pyQuoteChar (c : Char) : List Char :=
  if quoteKeep c then [c]
  else ['%', hexDigitChar (c.toNat / 16 % 16), hexDigitChar (c.toNat % 16)]

/-- src/generate_utils.py:61-63: the effective title (`"Untitled"` replaces an
absent, falsy, or non-string value). -/
def slug_title : TitleVal → String
  | .missing => "Untitled"
  | .nonString => "Untitled"
  | .str s => if s = "" then "Untitled" else s

/-- src/generate_utils.py:66-77: lowercase, strip, collapse hyphen/whitespace
runs, drop disallowed characters, strip `- _` from the ends. -/
def slug_core (title : String) : List Char :=
  slugStrip ((collapseRuns (pyStripList (title.data.map pyLowerChar))).filter slugAllowed)

/-- src/generate_utils.py:79-81: truncate to 50 characters and strip trailing
`- _` when too long. -/
def slug_trunc (l : List Char) : List Char :=
  if 50 < l.length then slugRstrip (l.take 50) else l

/-- src/generate_utils.py:59 `get_story_slug`: the processing pipeline, the
`"untitled"` fallback, and the final URL-quoting. -/
def get_story_slug (t : TitleVal) : String :=
  let l5 := slug_trunc (slug_core (slug_title t))
  let l6 := if l5.isEmpty then "untitled".data else l5
  ⟨(l6.map pyQuoteChar).flatten⟩

/-! ### Concrete records used by the counterexamples and witnesses -/

/-- A story of rank 5. -/
def story_rank5 : Story := { cluster_number := some 5 }

/-- A story of rank 1. -/
def story_rank1 : Story := { cluster_number := some 1 }

/-- A story of rank 3. -/
def story_rank3 : Story := { cluster_number := some 3 }

/-! ### C6: missing cluster_number -/

/-- C6: the claim says a missing `cluster_number` is treated as 999 and never
fails the run.  In fact `cluster_to_story` stores the missing rank as `None`
(so the 999 default of `story.get("cluster_number", 999)` is dead), and both
the score filter (`None < 100`) and the per-category sort then raise
`TypeError`.  This theorem evaluates the embedded code at the failing input:
a cluster record with no `cluster_number` field. -/
theorem missing_rank_raises_type_error :
    apply_filters [cluster_to_story {} none "News"] {} =
      .error "TypeError: unorderable types NoneType and int" ∧
    select_top_n [cluster_to_story {} none "News", cluster_to_story {} none "World"] 5 =
      .error "TypeError: unorderable types NoneType and int" :=
  ⟨rfl, rfl⟩

/-! ### C8: the per-category selector -/

/-- C8: the per-category selector sorts by `cluster_number` ascending and
keeps the first `top_n` entries, keeps everything when `top_n ≤ 0`, and on
ranks [5, 1, 3] with `top_n = 2` returns the rank-1 story then the rank-3
story. -/
theorem select_top_n_spec :
    (∀ (stories : List Story) (n : Int), 0 < n →
      (∀ s ∈ stories, s.cluster_number.isSome) →
      ∃ sorted_all : List Story, sorted_all.Perm stories ∧
        sorted_all.Sorted rankLe ∧
        select_top_n stories n = .ok (sorted_all.take n.toNat)) ∧
    (∀ (stories : List Story) (n : Int), n ≤ 0 → select_top_n stories n = .ok stories) ∧
    select_top_n [story_rank5, story_rank1, story_rank3] 2 = .ok [story_rank1, story_rank3] := by
  refine ⟨fun stories n hn hall => ?_, fun stories n hn => ?_, rfl⟩
  · refine ⟨stories.insertionSort rankLe, List.perm_insertionSort rankLe stories,
      List.sorted_insertionSort rankLe stories, ?_⟩
    unfold select_top_n
    rw [if_pos hn, if_pos]
    exact Or.inr (List.all_eq_true.mpr (fun s hs => hall s hs))
  · unfold select_top_n
    rw [if_neg (by omega)]

/-- Witness for C8 at the concrete ranks [5, 1, 3] with `top_n = 2`. -/
theorem select_top_n_spec_witness :
    ∃ sorted_all : List Story, sorted_all.Perm [story_rank5, story_rank1, story_rank3] ∧
      sorted_all.Sorted rankLe ∧
      select_top_n [story_rank5, story_rank1, story_rank3] 2 =
        .ok (sorted_all.take (2 : Int).toNat) :=
  select_top_n_spec.1 [story_rank5, story_rank1, story_rank3] 2 (by decide) (by decide)

/-! ### C10: apply_filters returns a subsequence -/

theorem apply_filters_go_sublist (ms : Int) :
    ∀ (l out : List Story), apply_filters_go ms l = .ok out → out.Sublist l := by
  intro l
  induction l with
  | nil =>
    intro out h
    simp only [apply_filters_go, Except.ok.injEq] at h
    exact h ▸ List.Sublist.refl []
  | cons s rest ih =>
    intro out h
    unfold apply_filters_go at h
    cases hc : s.cluster_number with
    | none => rw [hc] at h; exact absurd h (by simp)
    | some n =>
      rw [hc] at h
      cases hr : apply_filters_go ms rest with
      | error e => rw [hr] at h; exact absurd h (by simp [Except.map])
      | ok tail =>
        rw [hr] at h
        simp only [Except.map, Except.ok.injEq] at h
        subst h
        by_cases hkeep : ms ≤ (if n < 100 then 100 - n else 0) ∨ ms = 0
        · rw [if_pos hkeep]
          exact (ih tail hr).cons₂ s
        · rw [if_neg hkeep]
          exact (ih tail hr).cons s

/-- C10: whenever `apply_filters` returns (rather than raising), the output is
a subsequence of the input: kept stories appear unmodified and in their input
order, and nothing new is introduced. -/
theorem apply_filters_returns_sublist (stories : List Story) (config : Config)
    (out : List Story) (h : apply_filters stories config = .ok out) :
    out.Sublist stories := by
  unfold apply_filters at h
  split at h
  · cases h; exact List.Sublist.refl _
  · exact apply_filters_go_sublist _ _ _ h

/-- Witness for C10: with `min_score = 96` only the rank-1 story survives, a
subsequence of the input. -/
theorem apply_filters_returns_sublist_witness :
    List.Sublist [story_rank1] [story_rank5, story_rank1] :=
  apply_filters_returns_sublist [story_rank5, story_rank1]
    { min_score := 96 } [story_rank1] rfl

/-! ### Basic lemmas about the merge machinery -/

theorem find_duplicate_nil (urls : List String) : find_duplicate [] urls = none := by
  induction urls with
  | nil => rfl
  | cons u rest ih => simp [find_duplicate, lookup_seen, ih]

theorem find_duplicate_mem {seen : List (String × Nat)} {urls : List String} {i : Nat}
    (h : find_duplicate seen urls = some i) : ∃ u, (u, i) ∈ seen := by
  induction urls with
  | nil => simp [find_duplicate] at h
  | cons u rest ih =>
    unfold find_duplicate at h
    cases hl : lookup_seen seen (normalize_url u) with
    | none => rw [hl] at h; exact ih h
    | some j =>
      rw [hl] at h
      injection h with h
      subst h
      unfold lookup_seen at hl
      cases hf : List.find? (fun e => e.1 = normalize_url u) seen with
      | none => rw [hf] at hl; simp at hl
      | some e =>
        rw [hf] at hl
        simp only [Option.map_some'] at hl
        injection hl with hl
        have hmem := List.mem_of_find?_eq_some hf
        rw [← hl]
        exact ⟨e.1, hmem⟩

theorem mem_pyDedup {α : Type} [DecidableEq α] {x : α} {l : List α} :
    x ∈ pyDedup l ↔ x ∈ l := by
  induction l with
  | nil => simp [pyDedup]
  | cons a xs ih =>
    simp only [pyDedup, List.mem_cons, List.mem_filter, ih]
    by_cases hx : x = a
    · simp [hx]
    · simp [hx]

theorem register_urls_index {urls : List String} {idx : Nat} {u : String} {i : Nat}
    (h : (u, i) ∈ register_urls urls idx) : i = idx := by
  unfold register_urls at h
  rw [List.mem_filterMap] at h
  obtain ⟨v, _, hv⟩ := h
  split at hv
  · injection hv with hv
    exact (congrArg Prod.snd hv).symm
  · simp at hv

theorem register_urls_cons_keep {u : String} (urls : List String) (idx : Nat)
    (h1 : normalize_url u ≠ "") (h2 : ¬ pyStartsWith (normalize_url u) "hash:") :
    register_urls (u :: urls) idx = (normalize_url u, idx) :: register_urls urls idx := by
  unfold register_urls
  rw [List.filterMap_cons]
  rw [if_pos ⟨h1, h2⟩]

theorem lookup_seen_head (n : String) (i : Nat) (rest : List (String × Nat)) :
    lookup_seen ((n, i) :: rest) n = some i := by
  simp [lookup_seen, List.find?]

theorem merge_step_eq_none (st : MergeState) (s : Story)
    (hf : find_duplicate st.seen (candidate_urls s) = none) :
    merge_step st s =
      ⟨st.merged ++ [s], st.seen ++ register_urls (candidate_urls s) st.merged.length⟩ := by
  simp only [merge_step, hf]

theorem merge_step_eq_some (st : MergeState) (s : Story) (i : Nat)
    (hf : find_duplicate st.seen (candidate_urls s) = some i) :
    merge_step st s =
      { st with merged := st.merged.set i (merge_into (st.merged.getD i {}) s) } := by
  simp only [merge_step, hf]

theorem merge_step_fresh (s : Story) : merge_step ⟨[], []⟩ s =
    ⟨[s], register_urls (candidate_urls s) 0⟩ := by
  rw [merge_step_eq_none ⟨[], []⟩ s (find_duplicate_nil _)]
  rfl

theorem merge_pair (A B : Story) (h : (merge_duplicates [A, B]).length = 1) :
    merge_duplicates [A, B] = [merge_into A B] := by
  have e1 : merge_duplicates [A, B] = (merge_step (merge_step ⟨[], []⟩ A) B).merged := rfl
  rw [merge_step_fresh] at e1
  rw [e1] at h ⊢
  cases hf : find_duplicate ((⟨[A], register_urls (candidate_urls A) 0⟩ : MergeState).seen)
      (candidate_urls B) with
  | none =>
    rw [merge_step_eq_none _ _ hf] at h
    simp at h
  | some i =>
    obtain ⟨u, hu⟩ := find_duplicate_mem hf
    have hi : i = 0 := register_urls_index hu
    subst hi
    rw [merge_step_eq_some _ _ _ hf]
    rfl

/-! ### C1: key registration on merge -/

/-- C1 counterexample input: E carries link a; S carries links a and b and is
merged into E; T carries only link b. -/
def story_e1 : Story :=
  { title := "E", url := "http://a.com/1", articles := [{ link := "http://a.com/1" }] }

/-- See `story_e1`. -/
def story_s1 : Story :=
  { title := "S", url := "http://a.com/1",
    articles := [{ link := "http://a.com/1" }, { link := "http://b.com/1" }] }

/-- See `story_e1`. -/
def story_t1 : Story :=
  { title := "T", url := "http://b.com/1", articles := [{ link := "http://b.com/1" }] }

/-- C1 counterexample: the claim says S's not-yet-registered key b is
registered to point at E when S is merged into E, so that T (sharing only b
with S) is detected as a duplicate of E.  In fact the output has two entries
and T is appended as new, unchanged. -/
theorem merge_step_registers_duplicate_keys_cex :
    (merge_duplicates [story_e1, story_s1, story_t1]).length = 2 ∧
    (merge_duplicates [story_e1, story_s1, story_t1]).getD 1 {} = story_t1 := by decide

/-- C1 (amended): when an incoming story is detected as a duplicate, the
duplicate branch of `merge_duplicates` leaves the URL map completely unchanged
— none of the incoming story's candidate keys are registered — and appends
nothing; consequently a later story sharing an article link only with the
merged duplicate is appended as new rather than detected as a duplicate. -/
theorem merge_step_duplicate_registers_nothing (st : MergeState) (s : Story) (i : Nat)
    (h : find_duplicate st.seen (candidate_urls s) = some i) :
    (merge_step st s).seen = st.seen ∧ (merge_step st s).merged.length = st.merged.length := by
  rw [merge_step_eq_some st s i h]
  exact ⟨rfl, List.length_set _ _ _⟩

/-- Witness for the amended C1 at the state after processing E, with S
incoming. -/
theorem merge_step_duplicate_registers_nothing_witness :
    (merge_step ⟨[story_e1], [("http://a.com/1", 0)]⟩ story_s1).seen =
      [("http://a.com/1", 0)] ∧
    (merge_step ⟨[story_e1], [("http://a.com/1", 0)]⟩ story_s1).merged.length = 1 :=
  merge_step_duplicate_registers_nothing ⟨[story_e1], [("http://a.com/1", 0)]⟩ story_s1 0
    (by decide)

/-! ### C7: feed_category combination -/

/-- C7 concrete input: the Tech story of the spec's example. -/
def story_tech : Story :=
  { feed_category := "Tech", url := "http://x.com/1", articles := [{ link := "http://x.com/1" }] }

/-- C7 concrete input: the World story of the spec's example. -/
def story_world : Story :=
  { feed_category := "World", url := "http://x.com/1", articles := [{ link := "http://x.com/1" }] }

/-- C7: when a duplicate with a non-empty, different `feed_category` is merged,
the result's `feed_category` is the sorted comma-join of the two distinct
values (collapsing to the single value when the existing one is empty); in
particular Tech + World sharing one link merge to one story with
`feed_category = "Tech, World"` and a single article. -/
theorem merge_feed_category_combination :
    (∀ A B : Story, (merge_duplicates [A, B]).length = 1 →
      B.feed_category ≠ "" → B.feed_category ≠ A.feed_category →
      ∃ m : Story, merge_duplicates [A, B] = [m] ∧
        m.feed_category =
          (if A.feed_category = "" then B.feed_category
           else if pyStrLt A.feed_category B.feed_category then
             A.feed_category ++ ", " ++ B.feed_category
           else B.feed_category ++ ", " ++ A.feed_category)) ∧
    (merge_duplicates [story_tech, story_world]).length = 1 ∧
    ((merge_duplicates [story_tech, story_world]).getD 0 {}).feed_category = "Tech, World" ∧
    ((merge_duplicates [story_tech, story_world]).getD 0 {}).articles.length = 1 := by
  refine ⟨fun A B hlen hne hdiff => ?_, by decide, by decide, by decide⟩
  refine ⟨merge_into A B, merge_pair A B hlen, ?_⟩
  show merge_feed_category A.feed_category B.feed_category = _
  unfold merge_feed_category
  rw [if_pos ⟨hne, hdiff⟩]

/-- Witness for the general part of C7 at the Tech/World pair. -/
theorem merge_feed_category_combination_witness :
    ∃ m : Story, merge_duplicates [story_tech, story_world] = [m] ∧
      m.feed_category =
        (if story_tech.feed_category = "" then story_world.feed_category
         else if pyStrLt story_tech.feed_category story_world.feed_category then
           story_tech.feed_category ++ ", " ++ story_world.feed_category
         else story_world.feed_category ++ ", " ++ story_tech.feed_category) :=
  merge_feed_category_combination.1 story_tech story_world (by decide) (by decide) (by decide)

/-! ### C3: article union and source_urls superset -/

theorem truthy_links_all (arts : List Article) (h : ∀ a ∈ arts, a.link ≠ "") :
    truthy_links arts = arts.map (fun a => a.link) := by
  induction arts with
  | nil => rfl
  | cons a rest ih =>
    have ha : a.link ≠ "" := h a (List.mem_cons_self a rest)
    have ih2 := ih (fun x hx => h x (List.mem_cons_of_mem a hx))
    rw [truthy_links, List.filterMap_cons, if_pos ha, List.map_cons]
    exact congrArg (a.link :: ·) ih2

/-- C3 counterexample input: a story whose own articles list repeats a link. -/
def story_dup_links_a : Story :=
  { url := "http://x.com/1",
    articles := [{ link := "http://x.com/1", title := "one" },
                 { link := "http://x.com/1", title := "two" }] }

/-- See `story_dup_links_a`. -/
def story_dup_links_b : Story :=
  { url := "http://x.com/1", articles := [{ link := "http://x.com/1" }] }

/-- C3 counterexample: a merging pair whose merged articles list contains two
articles with the same link (the claim says that never happens). -/
theorem merge_articles_union_cex :
    (merge_duplicates [story_dup_links_a, story_dup_links_b]).length = 1 ∧
    ¬ (((merge_duplicates [story_dup_links_a, story_dup_links_b]).getD 0 {}).articles.map
        (fun a => a.link)).Nodup := by decide

/-- C3 (amended): for a merging pair (A, B) whose own articles lists each have
pairwise-distinct non-empty links, the merged story's articles are exactly the
union by link of A's and B's articles with no duplicate link, and its
source_urls contain every source URL of A and of B. -/
theorem merge_preserves_article_union (A B : Story)
    (hlen : (merge_duplicates [A, B]).length = 1)
    (hAnd : (A.articles.map (fun a => a.link)).Nodup)
    (hAne : ∀ a ∈ A.articles, a.link ≠ "")
    (hBnd : (B.articles.map (fun a => a.link)).Nodup) :
    ∃ m : Story, merge_duplicates [A, B] = [m] ∧
      (∀ l : String,
        (∃ a ∈ m.articles, a.link = l) ↔ ∃ a ∈ A.articles ++ B.articles, a.link = l) ∧
      (m.articles.map (fun a => a.link)).Nodup ∧
      (∀ u ∈ A.source_urls, u ∈ m.source_urls) ∧
      (∀ u ∈ B.source_urls, u ∈ m.source_urls) := by
  refine ⟨merge_into A B, merge_pair A B hlen, ?_, ?_, ?_, ?_⟩
  · -- the union of links
    intro l
    have harts : (merge_into A B).articles =
        A.articles ++ B.articles.filter
          (fun a => ¬ (truthy_links A.articles).contains a.link) := rfl
    rw [harts]
    constructor
    · rintro ⟨a, ha, rfl⟩
      rcases List.mem_append.mp ha with hA | hB
      · exact ⟨a, List.mem_append.mpr (Or.inl hA), rfl⟩
      · exact ⟨a, List.mem_append.mpr (Or.inr (List.mem_of_mem_filter hB)), rfl⟩
    · rintro ⟨a, ha, rfl⟩
      rcases List.mem_append.mp ha with hA | hB
      · exact ⟨a, List.mem_append.mpr (Or.inl hA), rfl⟩
      · by_cases hc : a.link ∈ A.articles.map (fun x => x.link)
        · obtain ⟨a2, ha2, hl2⟩ := List.mem_map.mp hc
          exact ⟨a2, List.mem_append.mpr (Or.inl ha2), hl2⟩
        · refine ⟨a, List.mem_append.mpr (Or.inr ?_), rfl⟩
          rw [List.mem_filter]
          refine ⟨hB, ?_⟩
          rw [truthy_links_all A.articles hAne]
          simpa using hc
  · -- no duplicate links
    have harts : (merge_into A B).articles =
        A.articles ++ B.articles.filter
          (fun a => ¬ (truthy_links A.articles).contains a.link) := rfl
    rw [harts, List.map_append, List.nodup_append]
    refine ⟨hAnd, ((List.filter_sublist B.articles).map _).nodup hBnd, ?_⟩
    intro x hxA hxB
    obtain ⟨b, hb, hbl⟩ := List.mem_map.mp hxB
    have hkeep := (List.mem_filter.mp hb).2
    rw [truthy_links_all A.articles hAne] at hkeep
    subst hbl
    simp only [decide_eq_true_eq] at hkeep
    exact hkeep (List.elem_iff.mpr hxA)
  · intro u hu
    show u ∈ merge_source_urls A.source_urls B.source_urls
    unfold merge_source_urls
    exact mem_pyDedup.mpr (List.mem_append.mpr (Or.inl hu))
  · intro u hu
    show u ∈ merge_source_urls A.source_urls B.source_urls
    unfold merge_source_urls
    exact mem_pyDedup.mpr (List.mem_append.mpr (Or.inr hu))

/-- C3 amended-claim witness: two stories sharing the x link, B contributing a
fresh y link. -/
theorem merge_preserves_article_union_witness :
    ∃ m : Story, merge_duplicates [story_tech,
        { feed_category := "World", url := "http://x.com/1",
          articles := [{ link := "http://x.com/1" }, { link := "http://y.com/2" }] }] = [m] ∧
      (∀ l : String,
        (∃ a ∈ m.articles, a.link = l) ↔
          ∃ a ∈ story_tech.articles ++
              [({ link := "http://x.com/1" } : Article), { link := "http://y.com/2" }],
            a.link = l) ∧
      (m.articles.map (fun a => a.link)).Nodup ∧
      (∀ u ∈ story_tech.source_urls, u ∈ m.source_urls) ∧
      (∀ u ∈ ([] : List String), u ∈ m.source_urls) :=
  merge_preserves_article_union story_tech
    { feed_category := "World", url := "http://x.com/1",
      articles := [{ link := "http://x.com/1" }, { link := "http://y.com/2" }] }
    (by decide) (by decide) (by decide) (by decide)

/-! ### C2: self-merge idempotence -/

theorem merge_scalar_str_self (x : String) : merge_scalar_str x x = x := by
  unfold merge_scalar_str
  exact ite_self x

theorem merge_item_category_self (x : String) : merge_item_category x x = x := by
  unfold merge_item_category
  exact ite_self x

theorem merge_opt_int_self (x : Option Int) : merge_opt_int x x = x := by
  unfold merge_opt_int
  exact ite_self x

theorem merge_opt_str_self (x : Option String) : merge_opt_str x x = x := by
  unfold merge_opt_str
  exact ite_self x

theorem merge_opt_img_self (x : Option Image) : merge_opt_img x x = x := by
  unfold merge_opt_img
  exact ite_self x

theorem merge_feed_category_self (x : String) : merge_feed_category x x = x := by
  unfold merge_feed_category
  rw [if_neg]
  rintro ⟨_, h⟩
  exact h rfl

theorem pyDedup_append_self_short (l : List String) (h : l.length ≤ 1) :
    pyDedup (l ++ l) = l := by
  match l with
  | [] => rfl
  | [x] => simp [pyDedup]
  | x :: y :: rest => simp at h

theorem merge_articles_self (arts : List Article) (h : ∀ a ∈ arts, a.link ≠ "") :
    merge_articles arts arts = arts := by
  have hnil : arts.filter (fun a => ¬ (truthy_links arts).contains a.link) = [] := by
    rw [List.filter_eq_nil_iff]
    intro a ha
    simp only [decide_eq_true_eq, Decidable.not_not]
    refine List.elem_iff.mpr ?_
    rw [truthy_links_all arts h]
    exact List.mem_map.mpr ⟨a, ha, rfl⟩
  simp only [merge_articles]
  rw [hnil, List.append_nil]

theorem merge_hashable_list_nil : merge_hashable_list ([] : List String) [] = [] := by
  simp [merge_hashable_list]

theorem merge_into_self (S : Story) (hlinks : ∀ a ∈ S.articles, a.link ≠ "")
    (htp : S.talking_points = []) (hp : S.perspectives = []) (ht : S.timeline = [])
    (hsu : S.source_urls.length ≤ 1) : merge_into S S = S := by
  apply Story.ext
  · exact merge_scalar_str_self _
  · exact merge_scalar_str_self _
  · exact merge_feed_category_self _
  · exact merge_item_category_self _
  · exact merge_opt_int_self _
  · exact merge_scalar_str_self _
  · exact merge_scalar_str_self _
  · show merge_hashable_list S.talking_points S.talking_points = S.talking_points
    rw [htp]
    exact merge_hashable_list_nil
  · show merge_unhashable_list S.perspectives S.perspectives = S.perspectives
    rw [hp]
    rfl
  · show merge_unhashable_list S.timeline S.timeline = S.timeline
    rw [ht]
    rfl
  · exact merge_opt_img_self _
  · exact merge_articles_self S.articles hlinks
  · rfl
  · show merge_source_urls S.source_urls S.source_urls = S.source_urls
    unfold merge_source_urls
    exact pyDedup_append_self_short S.source_urls hsu
  · exact merge_opt_str_self _

/-- C2 counterexample input: a story with one linked article and one
perspective record. -/
def story_selfdup : Story :=
  { title := "S", url := "http://a.com/1", articles := [{ link := "http://a.com/1" }],
    perspectives := [{ text := "p" }], source_urls := ["http://a.com/1"] }

/-- C2 counterexample: merging a story with itself is not idempotent — the
`perspectives` list (unhashable dict elements in Python) is concatenated with
itself, so the merged record has it doubled. -/
theorem merge_duplicates_self_idempotent_cex :
    merge_duplicates [story_selfdup, story_selfdup] ≠ [story_selfdup] := by decide

/-- C2 (amended): merging a story S with itself yields [S] provided every
article of S has a non-empty link that normalizes to a non-empty, non-hash
key, S's list-valued fields other than articles (talking_points, perspectives,
timeline) are empty, and source_urls has at most one entry.  Without those
provisos idempotence fails (see the counterexample: unhashable list fields are
doubled; multi-element set-rebuilt lists may also be reordered). -/
theorem merge_duplicates_self_idempotent (S : Story)
    (hne : S.articles ≠ [])
    (hlinks : ∀ a ∈ S.articles, a.link ≠ "")
    (hnorm : ∀ a ∈ S.articles, normalize_url a.link ≠ "" ∧
      ¬ pyStartsWith (normalize_url a.link) "hash:")
    (htp : S.talking_points = []) (hp : S.perspectives = []) (ht : S.timeline = [])
    (hsu : S.source_urls.length ≤ 1) :
    merge_duplicates [S, S] = [S] := by
  have hcand : candidate_urls S = S.articles.map (fun a => a.link) := by
    unfold candidate_urls
    rw [truthy_links_all S.articles hlinks]
    rw [if_neg]
    simp only [List.isEmpty_iff, List.map_eq_nil_iff]
    exact hne
  obtain ⟨a, rest, hSa⟩ : ∃ a rest, S.articles = a :: rest := by
    cases h : S.articles with
    | nil => exact absurd h hne
    | cons a r => exact ⟨a, r, rfl⟩
  have hamem : a ∈ S.articles := by rw [hSa]; exact List.mem_cons_self a rest
  have hreg : register_urls (candidate_urls S) 0 =
      (normalize_url a.link, 0) :: register_urls (rest.map (fun x => x.link)) 0 := by
    rw [hcand, hSa, List.map_cons]
    exact register_urls_cons_keep _ 0 (hnorm a hamem).1 (hnorm a hamem).2
  have hfind : find_duplicate
      ((⟨[S], register_urls (candidate_urls S) 0⟩ : MergeState).seen)
      (candidate_urls S) = some 0 := by
    show find_duplicate (register_urls (candidate_urls S) 0) (candidate_urls S) = some 0
    rw [hreg]
    conv_lhs => rw [hcand, hSa, List.map_cons]
    unfold find_duplicate
    rw [lookup_seen_head]
  have e1 : merge_duplicates [S, S] = (merge_step (merge_step ⟨[], []⟩ S) S).merged := rfl
  rw [e1, merge_step_fresh, merge_step_eq_some _ S 0 hfind]
  show [S].set 0 (merge_into ([S].getD 0 {}) S) = [S]
  rw [show ([S].getD 0 {}) = S from rfl]
  rw [merge_into_self S hlinks htp hp ht hsu]
  rfl

/-- C2 witness input: like `story_selfdup` but with no perspectives. -/
def story_selfok : Story :=
  { title := "S", url := "http://a.com/1", articles := [{ link := "http://a.com/1" }],
    source_urls := ["http://a.com/1"] }

/-- Witness for the amended C2. -/
theorem merge_duplicates_self_idempotent_witness :
    merge_duplicates [story_selfok, story_selfok] = [story_selfok] :=
  merge_duplicates_self_idempotent story_selfok (by decide) (by decide) (by decide)
    (by decide) (by decide) (by decide) (by decide)

/-! ### C5: primary URL resolution -/

theorem hash_prefixed_ne_empty (s : String) : "hash:" ++ s ≠ "" := by
  intro h
  have h2 := congrArg String.data h
  rw [String.data_append] at h2
  simp at h2

/-- C5 counterexample input: the articles list is non-empty but its first
entry has no link, and a quote source URL exists. -/
def cluster_qfallback : Cluster :=
  { articles := [{ link := "" }], quote_source_url := "http://q.example.com" }

/-- C5 counterexample: the claim says that whenever the articles list is
non-empty the result equals the first article's link; here the first article
has an empty link and the function falls through to the quote source URL
instead. -/
theorem get_primary_source_url_first_article_cex :
    cluster_qfallback.articles ≠ [] ∧
    get_primary_source_url cluster_qfallback ≠ (cluster_qfallback.articles.getD 0 {}).link := by
  decide

/-- C5 (amended): `get_primary_source_url` is deterministic and total and
always returns a non-empty string; whenever the articles list is non-empty
AND its first entry's link is non-empty, the result is that link. -/
theorem primary_chain_ne (c : Cluster) (fa : String) :
    (if fa ≠ "" then fa
     else if c.quote_source_url ≠ "" then c.quote_source_url
     else if first_perspective_url c ≠ "" then first_perspective_url c
     else
       let imgLink : String :=
         match c.primary_image with
         | some img => img.link
         | none => ""
       if imgLink ≠ "" then imgLink
       else "hash:" ++ cluster_content_hash c) ≠ "" := by
  dsimp only
  split_ifs <;> first | assumption | exact hash_prefixed_ne_empty _

theorem get_primary_source_url_total :
    (∀ c : Cluster, get_primary_source_url c ≠ "") ∧
    (∀ (c : Cluster) (a : Article) (rest : List Article),
      c.articles = a :: rest → a.link ≠ "" → get_primary_source_url c = a.link) := by
  constructor
  · intro c
    exact primary_chain_ne c _
  · intro c a rest hc ha
    unfold get_primary_source_url
    rw [hc]
    exact if_pos ha

/-- Witness for the amended C5: the fallback input yields a non-empty result,
and a cluster whose first article has a link yields that link. -/
theorem get_primary_source_url_total_witness :
    get_primary_source_url cluster_qfallback ≠ "" ∧
    get_primary_source_url { articles := [{ link := "http://a.com/1" }] } = "http://a.com/1" :=
  ⟨get_primary_source_url_total.1 cluster_qfallback,
   get_primary_source_url_total.2 { articles := [{ link := "http://a.com/1" }] }
     { link := "http://a.com/1" } [] rfl (by decide)⟩

/-! ### C9: slug generation -/

theorem slugRstrip_subset {l : List Char} {x : Char} (h : x ∈ slugRstrip l) : x ∈ l := by
  unfold slugRstrip at h
  rw [List.mem_reverse] at h
  have h2 := (List.dropWhile_sublist slugStripChar).subset h
  exact List.mem_reverse.mp h2

theorem slugStrip_subset {l : List Char} {x : Char} (h : x ∈ slugStrip l) : x ∈ l := by
  unfold slugStrip at h
  exact (List.dropWhile_sublist _).subset (slugRstrip_subset h)

theorem slugRstrip_length_le (l : List Char) : (slugRstrip l).length ≤ l.length := by
  unfold slugRstrip
  rw [List.length_reverse]
  calc (l.reverse.dropWhile slugStripChar).length
      ≤ l.reverse.length := (List.dropWhile_sublist _).length_le
    _ = l.length := List.length_reverse l

theorem slug_core_allowed (title : String) :
    ∀ c ∈ slug_core title, slugAllowed c = true := by
  intro c hc
  exact (List.mem_filter.mp (slugStrip_subset hc)).2

theorem slug_trunc_allowed {l : List Char} (h : ∀ c ∈ l, slugAllowed c = true) :
    ∀ c ∈ slug_trunc l, slugAllowed c = true := by
  intro c hc
  unfold slug_trunc at hc
  split at hc
  · exact h c ((List.take_sublist 50 l).subset (slugRstrip_subset hc))
  · exact h c hc

theorem slug_trunc_le_50 (l : List Char) : (slug_trunc l).length ≤ 50 := by
  unfold slug_trunc
  split
  · calc (slugRstrip (l.take 50)).length
        ≤ (l.take 50).length := slugRstrip_length_le _
      _ ≤ 50 := by simp [List.length_take]
  · next h => omega

theorem allowed_quoteKeep {c : Char} (h : slugAllowed c = true) : quoteKeep c = true := by
  unfold slugAllowed at h
  unfold quoteKeep
  simp only [decide_eq_true_eq] at h ⊢
  tauto

theorem quote_flatten_id {l : List Char} (h : ∀ c ∈ l, quoteKeep c = true) :
    (l.map pyQuoteChar).flatten = l := by
  induction l with
  | nil => rfl
  | cons c rest ih =>
    rw [List.map_cons, List.flatten_cons]
    rw [show pyQuoteChar c = [c] from by
      unfold pyQuoteChar; rw [if_pos (h c (List.mem_cons_self _ _))]]
    rw [ih (fun x hx => h x (List.mem_cons_of_mem _ hx))]
    rfl

theorem slug_final_props (l5 : List Char) (hall : ∀ c ∈ l5, slugAllowed c = true)
    (hlen : l5.length ≤ 50) :
    ((if l5.isEmpty then "untitled".data else l5).map pyQuoteChar).flatten ≠ [] ∧
    (((if l5.isEmpty then "untitled".data else l5).map pyQuoteChar).flatten).length ≤ 50 ∧
    ∀ c ∈ ((if l5.isEmpty then "untitled".data else l5).map pyQuoteChar).flatten,
      slugAllowed c = true := by
  have h6all : ∀ c ∈ (if l5.isEmpty then "untitled".data else l5), slugAllowed c = true := by
    split
    · decide
    · exact hall
  have hid := quote_flatten_id (fun c hc => allowed_quoteKeep (h6all c hc))
  rw [hid]
  refine ⟨?_, ?_, h6all⟩
  · split
    · decide
    · next h =>
      intro hnil
      exact h (List.isEmpty_iff.mpr hnil)
  · split
    · decide
    · exact hlen

set_option maxHeartbeats 1000000 in
/-- C9: `get_story_slug` is total over story records: for every title value
(absent, non-string, empty, or any string) it returns a non-empty string of at
most 50 characters consisting only of lowercase ASCII letters, digits,
hyphens, and underscores. -/
theorem get_story_slug_total (t : TitleVal) :
    get_story_slug t ≠ "" ∧ (get_story_slug t).length ≤ 50 ∧
    ∀ c ∈ (get_story_slug t).data, slugAllowed c = true := by
  obtain ⟨h1, h2, h3⟩ := slug_final_props (slug_trunc (slug_core (slug_title t)))
    (slug_trunc_allowed (slug_core_allowed (slug_title t)))
    (slug_trunc_le_50 (slug_core (slug_title t)))
  refine ⟨?_, h2, h3⟩
  intro h
  exact h1 (congrArg String.data h)

/-! ### C4: hash-identified stories are inert

The claim is formalized as an insertion property: a hash-identified story with
no article links passes through `merge_duplicates` untouched — the rest of the
output is exactly the output of the run without it, with the story inserted
(unchanged) at the position the run had reached.  The simulation argument
tracks the one-position shift of every output index at or beyond the insertion
point (`bumpIdx`). -/

/-- Index shift caused by inserting one story at position `k`. -/
def bumpIdx (k i : Nat) : Nat := if k ≤ i then i + 1 else i

/-- The shift applied to one URL-map entry. -/
def bumpEntry (k : Nat) (e : String × Nat) : String × Nat := (e.1, bumpIdx k e.2)

/-- Insert `S` at position `k` (`l.take k ++ S :: l.drop k`). -/
def insertAt (k : Nat) (S : Story) (l : List Story) : List Story :=
  l.take k ++ S :: l.drop k

theorem insertAt_length (k : Nat) (S : Story) (m : List Story) (hk : k ≤ m.length) :
    (insertAt k S m).length = m.length + 1 := by
  unfold insertAt
  simp only [List.length_append, List.length_cons, List.length_take, List.length_drop]
  omega

theorem insertAt_length_self (S : Story) (m : List Story) :
    insertAt m.length S m = m ++ [S] := by
  unfold insertAt
  rw [List.take_length, List.drop_length]

theorem insertAt_append_single (k : Nat) (S : Story) (m : List Story) (s : Story)
    (hk : k ≤ m.length) :
    insertAt k S (m ++ [s]) = insertAt k S m ++ [s] := by
  unfold insertAt
  rw [List.take_append_of_le_length hk, List.drop_append_of_le_length hk]
  simp

theorem bumpIdx_succ (k i : Nat) : bumpIdx (k + 1) (i + 1) = bumpIdx k i + 1 := by
  unfold bumpIdx
  by_cases h : k ≤ i
  · rw [if_pos (by omega), if_pos h]
  · rw [if_neg (by omega), if_neg h]

theorem insertAt_getD (S : Story) (d : Story) :
    ∀ (m : List Story) (k i : Nat), k ≤ m.length → i < m.length →
      (insertAt k S m).getD (bumpIdx k i) d = m.getD i d := by
  intro m
  induction m with
  | nil => intro k i _ hi; simp at hi
  | cons a m ih =>
    intro k i hk hi
    cases k with
    | zero =>
      show (S :: a :: m).getD (bumpIdx 0 i) d = (a :: m).getD i d
      rw [show bumpIdx 0 i = i + 1 from by unfold bumpIdx; rw [if_pos (Nat.zero_le i)]]
      rw [List.getD_cons_succ]
    | succ k =>
      have hins : insertAt (k + 1) S (a :: m) = a :: insertAt k S m := rfl
      rw [hins]
      cases i with
      | zero =>
        rw [show bumpIdx (k + 1) 0 = 0 from by unfold bumpIdx; rw [if_neg (by omega)]]
        rw [List.getD_cons_zero, List.getD_cons_zero]
      | succ i =>
        rw [bumpIdx_succ, List.getD_cons_succ, List.getD_cons_succ]
        exact ih k i (by simpa using hk) (by simpa using hi)

theorem insertAt_set (S : Story) (v : Story) :
    ∀ (m : List Story) (k i : Nat), k ≤ m.length → i < m.length →
      insertAt k S (m.set i v) = (insertAt k S m).set (bumpIdx k i) v := by
  intro m
  induction m with
  | nil => intro k i _ hi; simp at hi
  | cons a m ih =>
    intro k i hk hi
    cases k with
    | zero =>
      show S :: (a :: m).set i v = (S :: a :: m).set (bumpIdx 0 i) v
      rw [show bumpIdx 0 i = i + 1 from by unfold bumpIdx; rw [if_pos (Nat.zero_le i)]]
      rfl
    | succ k =>
      have hins : insertAt (k + 1) S (a :: m) = a :: insertAt k S m := rfl
      cases i with
      | zero =>
        rw [show bumpIdx (k + 1) 0 = 0 from by unfold bumpIdx; rw [if_neg (by omega)]]
        rfl
      | succ i =>
        show insertAt (k + 1) S (a :: m.set i v) = (a :: insertAt k S m).set (bumpIdx (k + 1) (i + 1)) v
        rw [bumpIdx_succ]
        show a :: insertAt k S (m.set i v) = a :: (insertAt k S m).set (bumpIdx k i) v
        rw [ih k i (by simpa using hk) (by simpa using hi)]

theorem lookup_seen_map_bump (k : Nat) (seen : List (String × Nat)) (u : String) :
    lookup_seen (seen.map (bumpEntry k)) u = (lookup_seen seen u).map (bumpIdx k) := by
  induction seen with
  | nil => rfl
  | cons e rest ih =>
    unfold lookup_seen at ih ⊢
    rw [List.map_cons]
    by_cases he : e.1 = u
    · rw [List.find?_cons_of_pos _ (by simp [bumpEntry, he]),
        List.find?_cons_of_pos _ (by simp [he])]
      simp [bumpEntry]
    · rw [List.find?_cons_of_neg _ (by simp [bumpEntry, he]),
        List.find?_cons_of_neg _ (by simp [he])]
      exact ih

theorem find_duplicate_map_bump (k : Nat) (seen : List (String × Nat)) (urls : List String) :
    find_duplicate (seen.map (bumpEntry k)) urls =
      (find_duplicate seen urls).map (bumpIdx k) := by
  induction urls with
  | nil => rfl
  | cons u rest ih =>
    unfold find_duplicate
    rw [lookup_seen_map_bump]
    cases lookup_seen seen (normalize_url u) with
    | none => simpa using ih
    | some i => rfl

theorem register_urls_map_bump (k : Nat) (urls : List String) (idx : Nat) (hk : k ≤ idx) :
    (register_urls urls idx).map (bumpEntry k) = register_urls urls (idx + 1) := by
  unfold register_urls
  rw [List.map_filterMap]
  apply List.filterMap_congr
  intro u _
  split
  · simp only [Option.map_some']
    unfold bumpEntry bumpIdx
    rw [if_pos hk]
  · rfl

theorem merge_step_length_mono (st : MergeState) (s : Story) :
    st.merged.length ≤ (merge_step st s).merged.length := by
  cases hf : find_duplicate st.seen (candidate_urls s) with
  | none => rw [merge_step_eq_none _ _ hf]; simp
  | some i => rw [merge_step_eq_some _ _ _ hf]; simp

theorem merge_step_inv (st : MergeState) (s : Story)
    (hinv : ∀ e ∈ st.seen, e.2 < st.merged.length) :
    ∀ e ∈ (merge_step st s).seen, e.2 < (merge_step st s).merged.length := by
  cases hf : find_duplicate st.seen (candidate_urls s) with
  | some i =>
    rw [merge_step_eq_some _ _ _ hf]
    intro e he
    simpa using hinv e he
  | none =>
    rw [merge_step_eq_none _ _ hf]
    intro e he
    simp only [List.length_append, List.length_cons]
    rcases List.mem_append.mp he with hold | hnew
    · have := hinv e hold; omega
    · have : e.2 = st.merged.length := by
        obtain ⟨a, b⟩ := e
        exact register_urls_index hnew
      omega

theorem merge_go_append (st : MergeState) (l1 l2 : List Story) :
    merge_go st (l1 ++ l2) = merge_go (merge_go st l1) l2 := by
  induction l1 generalizing st with
  | nil => rfl
  | cons s rest ih => exact ih (merge_step st s)

theorem merge_go_inv (l : List Story) :
    ∀ st : MergeState, (∀ e ∈ st.seen, e.2 < st.merged.length) →
      ∀ e ∈ (merge_go st l).seen, e.2 < (merge_go st l).merged.length := by
  induction l with
  | nil => intro st hinv; exact hinv
  | cons s rest ih => intro st hinv; exact ih (merge_step st s) (merge_step_inv st s hinv)

theorem merge_step_insert (S : Story) (k : Nat) (st : MergeState) (s : Story)
    (hk : k ≤ st.merged.length) (hinv : ∀ e ∈ st.seen, e.2 < st.merged.length) :
    merge_step ⟨insertAt k S st.merged, st.seen.map (bumpEntry k)⟩ s =
      ⟨insertAt k S (merge_step st s).merged, (merge_step st s).seen.map (bumpEntry k)⟩ := by
  cases hf : find_duplicate st.seen (candidate_urls s) with
  | none =>
    have hf2 : find_duplicate ((⟨insertAt k S st.merged,
        st.seen.map (bumpEntry k)⟩ : MergeState).seen) (candidate_urls s) = none := by
      show find_duplicate (st.seen.map (bumpEntry k)) (candidate_urls s) = none
      rw [find_duplicate_map_bump, hf]
      rfl
    rw [merge_step_eq_none _ _ hf2, merge_step_eq_none _ _ hf]
    show (⟨insertAt k S st.merged ++ [s], st.seen.map (bumpEntry k) ++
        register_urls (candidate_urls s) (insertAt k S st.merged).length⟩ : MergeState) = _
    congr 1
    · exact (insertAt_append_single k S st.merged s hk).symm
    · rw [List.map_append]
      congr 1
      rw [insertAt_length k S st.merged hk]
      exact (register_urls_map_bump k (candidate_urls s) st.merged.length hk).symm
  | some i =>
    have hi : i < st.merged.length := by
      obtain ⟨u, hu⟩ := find_duplicate_mem hf
      exact hinv _ hu
    have hf2 : find_duplicate ((⟨insertAt k S st.merged,
        st.seen.map (bumpEntry k)⟩ : MergeState).seen) (candidate_urls s) =
        some (bumpIdx k i) := by
      show find_duplicate (st.seen.map (bumpEntry k)) (candidate_urls s) = some (bumpIdx k i)
      rw [find_duplicate_map_bump, hf]
      rfl
    rw [merge_step_eq_some _ _ _ hf2, merge_step_eq_some _ _ _ hf]
    show (⟨(insertAt k S st.merged).set (bumpIdx k i)
        (merge_into ((insertAt k S st.merged).getD (bumpIdx k i) {}) s),
        st.seen.map (bumpEntry k)⟩ : MergeState) = _
    congr 1
    rw [insertAt_getD S {} st.merged k i hk hi]
    exact (insertAt_set S _ st.merged k i hk hi).symm

theorem merge_go_insert (S : Story) (k : Nat) :
    ∀ (l : List Story) (st : MergeState), k ≤ st.merged.length →
      (∀ e ∈ st.seen, e.2 < st.merged.length) →
      merge_go ⟨insertAt k S st.merged, st.seen.map (bumpEntry k)⟩ l =
        ⟨insertAt k S (merge_go st l).merged, (merge_go st l).seen.map (bumpEntry k)⟩ := by
  intro l
  induction l with
  | nil => intro st _ _; rfl
  | cons s rest ih =>
    intro st hk hinv
    show merge_go (merge_step ⟨insertAt k S st.merged, st.seen.map (bumpEntry k)⟩ s) rest = _
    rw [merge_step_insert S k st s hk hinv]
    exact ih (merge_step st s) (le_trans hk (merge_step_length_mono st s))
      (merge_step_inv st s hinv)

/-- C4: a story whose primary URL is `"hash:"`-prefixed and which has no
truthy article link is inert in `merge_duplicates`: it is never detected as a
duplicate, nothing is ever merged into it, its keys are never registered, and
it appears in the output unchanged, as its own entry, exactly at the position
the run had reached — the rest of the output is the output of the run without
it. -/
theorem merge_duplicates_hash_isolated (pre suf : List Story) (S : Story)
    (hurl : pyStartsWith S.url "hash:" = true)
    (hlinks : truthy_links S.articles = []) :
    merge_duplicates (pre ++ S :: suf) =
      insertAt (merge_duplicates pre).length S (merge_duplicates (pre ++ suf)) := by
  have hcand : candidate_urls S = [] := by
    unfold candidate_urls
    rw [hlinks]
    simp [hurl]
  have h0 : ∀ e ∈ (merge_go ⟨[], []⟩ pre).seen, e.2 < (merge_go ⟨[], []⟩ pre).merged.length :=
    merge_go_inv pre ⟨[], []⟩ (by intro e he; simp at he)
  have e1 : merge_duplicates (pre ++ S :: suf) =
      (merge_go (merge_step (merge_go ⟨[], []⟩ pre) S) suf).merged := by
    unfold merge_duplicates
    rw [merge_go_append]
    rfl
  have e2 : merge_step (merge_go ⟨[], []⟩ pre) S =
      ⟨insertAt (merge_go ⟨[], []⟩ pre).merged.length S (merge_go ⟨[], []⟩ pre).merged,
        (merge_go ⟨[], []⟩ pre).seen.map
          (bumpEntry (merge_go ⟨[], []⟩ pre).merged.length)⟩ := by
    have hfind : find_duplicate (merge_go ⟨[], []⟩ pre).seen (candidate_urls S) = none := by
      rw [hcand]
      rfl
    rw [merge_step_eq_none _ _ hfind]
    congr 1
    · exact (insertAt_length_self S _).symm
    · rw [hcand]
      rw [show register_urls [] (merge_go ⟨[], []⟩ pre).merged.length = [] from rfl,
        List.append_nil]
      have hid : ∀ e ∈ (merge_go ⟨[], []⟩ pre).seen,
          bumpEntry (merge_go ⟨[], []⟩ pre).merged.length e = (id e : String × Nat) := by
        intro e he
        unfold bumpEntry bumpIdx
        rw [if_neg (Nat.not_le.mpr (h0 e he))]
        rfl
      exact ((List.map_congr_left hid).trans
        (List.map_id (merge_go ⟨[], []⟩ pre).seen)).symm
  rw [e1, e2, merge_go_insert S _ suf (merge_go ⟨[], []⟩ pre) le_rfl h0]
  have e3 : merge_duplicates (pre ++ suf) = (merge_go (merge_go ⟨[], []⟩ pre) suf).merged := by
    unfold merge_duplicates
    rw [merge_go_append]
  rw [e3]
  rfl

/-- C4 witness input: a story identified only by a synthetic hash. -/
def story_hash : Story := { title := "H", url := "hash:deadbeef" }

/-- Witness for C4: between two ordinary stories, the hash story passes
through unchanged at position 1. -/
theorem merge_duplicates_hash_isolated_witness :
    merge_duplicates ([story_e1] ++ story_hash :: [story_t1]) =
      insertAt (merge_duplicates [story_e1]).length story_hash
        (merge_duplicates ([story_e1] ++ [story_t1])) :=
  merge_duplicates_hash_isolated [story_e1] [story_t1] story_hash (by decide) (by decide)
